import Mathlib

/-!
Verification of the SlackChatExport bot (`src/app.ts`) against its
natural-language specification.

The development shallowly embeds the export pipeline of `src/app.ts`:

* calendar date/time values (`CivilDateTime`) stand for JavaScript `Date`
  instants rendered/parsed in a fixed `+9h` local offset, exactly as the
  source treats them (the server clock is assumed UTC, the source shifts
  by nine hours with date-fns `addHours`);
* `parseDateTime`, `formatMessage`, `formatMessageMarkdown`,
  `getThreadReplies`, the pagination loop, the thread-reassembly loop and
  the export file naming are translated function by function from the
  TypeScript source; remote endpoints become explicit oracles so that the
  surrounding control flow is preserved verbatim;
* JavaScript truthiness on strings (`""` is falsy) and on numbers
  (`0` is falsy) is modelled explicitly wherever the source relies on it
  (`users.get(u) || u || 'Unknown User'`, `retryAfter || 60`,
  `while (cursor)`).
-/

/-! ## Digits, padding and basic character parsing -/

/-- Numeric value of a decimal digit character; `none` on anything else. -/
def digitVal (c : Char) : Option Nat :=
  if c = '0' then some 0 else if c = '1' then some 1 else if c = '2' then some 2
  else if c = '3' then some 3 else if c = '4' then some 4 else if c = '5' then some 5
  else if c = '6' then some 6 else if c = '7' then some 7 else if c = '8' then some 8
  else if c = '9' then some 9 else none

/-- Decimal digit character for values `0`–`9` (other inputs map to `'0'`;
they never occur in this development). -/
def digitChar : Nat → Char
  | 0 => '0' | 1 => '1' | 2 => '2' | 3 => '3' | 4 => '4'
  | 5 => '5' | 6 => '6' | 7 => '7' | 8 => '8' | 9 => '9'
  | _ => '0'

/-- Parse exactly `k` decimal digits, most significant first, on top of an
accumulator (the helper behind fixed-width field parsing). -/
def parseDigitsAux : Nat → Nat → List Char → Option (Nat × List Char)
  | 0, acc, l => some (acc, l)
  | _ + 1, _, [] => none
  | k + 1, acc, c :: r =>
    match digitVal c with
    | some v => parseDigitsAux k (acc * 10 + v) r
    | none => none

/-- Zero-padded fixed-width decimal rendering, most significant digit
first; the exact inverse of `parseDigitsAux` on values `< 10 ^ k`. -/
def padDigits : Nat → Nat → List Char
  | 0, _ => []
  | k + 1, n => digitChar (n / 10 ^ k) :: padDigits k (n % 10 ^ k)

/-- Expect one specific character and consume it. -/
def expectChar (c : Char) : List Char → Option (List Char)
  | x :: r => if x = c then some r else none
  | [] => none

theorem digitVal_inv {c : Char} {v : Nat} (h : digitVal c = some v) :
    digitChar v = c ∧ v < 10 := by
  unfold digitVal at h
  split_ifs at h
  all_goals (try cases h)
  all_goals (subst_vars; exact ⟨rfl, by omega⟩)

theorem parseDigitsAux_inv : ∀ (k acc : Nat) (l : List Char) (v : Nat) (r : List Char),
    parseDigitsAux k acc l = some (v, r) →
    ∃ t, t < 10 ^ k ∧ v = acc * 10 ^ k + t ∧ l = padDigits k t ++ r := by
  intro k
  induction k with
  | zero =>
    intro acc l v r h
    simp [parseDigitsAux] at h
    exact ⟨0, by omega, by omega, by simp [padDigits, h.2]⟩
  | succ k ih =>
    intro acc l v r h
    cases l with
    | nil => simp [parseDigitsAux] at h
    | cons c l' =>
      rw [parseDigitsAux] at h
      split at h
      case _ w hd =>
        obtain ⟨hchar, hw⟩ := digitVal_inv hd
        obtain ⟨t, ht, hv, hl⟩ := ih (acc * 10 + w) l' v r h
        refine ⟨w * 10 ^ k + t, ?_, ?_, ?_⟩
        · have h1 : (0:Nat) < 10 ^ k := Nat.pos_pow_of_pos k (by norm_num)
          have h2 : 10 ^ (k + 1) = 10 ^ k * 10 := by rw [pow_succ]
          nlinarith
        · rw [hv, pow_succ]; ring
        · rw [hl, padDigits]
          have h1 : (0:Nat) < 10 ^ k := Nat.pos_pow_of_pos k (by norm_num)
          have hdiv : (w * 10 ^ k + t) / 10 ^ k = w := by
            rw [Nat.mul_comm w (10 ^ k), Nat.mul_add_div h1, Nat.div_eq_of_lt ht]
            omega
          have hmod : (w * 10 ^ k + t) % 10 ^ k = t := by
            rw [Nat.mul_comm w (10 ^ k), Nat.mul_add_mod, Nat.mod_eq_of_lt ht]
          rw [hdiv, hmod, hchar]
          simp
      case _ hd => cases h

theorem expectChar_inv {c : Char} {l r : List Char} (h : expectChar c l = some r) :
    l = c :: r := by
  cases l with
  | nil => cases h
  | cons x l' =>
    rw [expectChar] at h
    split_ifs at h with hx
    · cases h; rw [hx]

/-! ## Civil calendar model of JavaScript `Date` values

The source manipulates `Date` instants only through date-fns `parseISO`,
`addHours` and `format`.  We embed an instant as the civil (calendar)
date-time it renders to; `addHoursC` is date-fns `addHours` expressed as
carry/borrow arithmetic on the calendar, which agrees with millisecond
arithmetic on the underlying epoch value. -/

/-- Proleptic Gregorian leap-year rule (what `Date` / date-fns use). -/
def isLeap (y : Int) : Bool :=
  y % 4 = 0 && (y % 100 ≠ 0 || y % 400 = 0)

/-- Number of days of month `m` (1–12) in year `y`. -/
def daysInMonth (y : Int) (m : Nat) : Nat :=
  if m = 2 then (if isLeap y then 29 else 28)
  else if m = 4 ∨ m = 6 ∨ m = 9 ∨ m = 11 then 30
  else 31

/-- A calendar date-time: the civil rendering of a `Date` instant. -/
structure CivilDateTime where
  year : Int
  month : Nat
  day : Nat
  hour : Nat
  minute : Nat
  second : Nat
  deriving DecidableEq, Repr

/-- The date fields denote a real calendar day and the time fields are in
range.  Every `CivilDateTime` produced by the parser satisfies this. -/
def validDT (dt : CivilDateTime) : Prop :=
  1 ≤ dt.month ∧ dt.month ≤ 12 ∧ 1 ≤ dt.day ∧ dt.day ≤ daysInMonth dt.year dt.month ∧
  dt.hour < 24 ∧ dt.minute < 60 ∧ dt.second < 60

/-- Successor day of a calendar date. -/
def nextDate : Int × Nat × Nat → Int × Nat × Nat
  | (y, m, d) =>
    if d < daysInMonth y m then (y, m, d + 1)
    else if m < 12 then (y, m + 1, 1)
    else (y + 1, 1, 1)

/-- Predecessor day of a calendar date. -/
def prevDate : Int × Nat × Nat → Int × Nat × Nat
  | (y, m, d) =>
    if 1 < d then (y, m, d - 1)
    else if 1 < m then (y, m - 1, daysInMonth y (m - 1))
    else (y - 1, 12, 31)

/-- Shift a calendar date by a signed number of days. -/
def shiftDate (n : Int) (p : Int × Nat × Nat) : Int × Nat × Nat :=
  if 0 ≤ n then nextDate^[n.toNat] p else prevDate^[(-n).toNat] p

/-- date-fns `addHours` on the civil rendering: shift the minute-of-day,
carrying into the calendar date.  `Int.ediv`/`Int.emod` round toward
negative infinity for the positive modulus `1440`, matching epoch
arithmetic. -/
def addHoursC (h : Int) (dt : CivilDateTime) : CivilDateTime :=
  let total : Int := (dt.hour : Int) * 60 + (dt.minute : Int) + h * 60
  let dayShift : Int := total / 1440
  let rem : Nat := (total % 1440).toNat
  let p := shiftDate dayShift (dt.year, dt.month, dt.day)
  ⟨p.1, p.2.1, p.2.2, rem / 60, rem % 60, dt.second⟩

theorem nextDate_prevDate {y : Int} {m d : Nat}
    (hm1 : 1 ≤ m) (hm2 : m ≤ 12) (hd1 : 1 ≤ d) (hd2 : d ≤ daysInMonth y m) :
    nextDate (prevDate (y, m, d)) = (y, m, d) := by
  rw [prevDate]
  by_cases h1 : 1 < d
  · rw [if_pos h1, nextDate]
    rw [if_pos (by omega)]
    simp only [Prod.mk.injEq]
    refine ⟨?_, ?_, ?_⟩ <;> first | trivial | omega
  · rw [if_neg h1]
    have hd : d = 1 := by omega
    by_cases h2 : 1 < m
    · rw [if_pos h2, nextDate]
      rw [if_neg (by omega)]
      rw [if_pos (by omega)]
      simp only [Prod.mk.injEq]
      refine ⟨?_, ?_, ?_⟩ <;> first | trivial | omega
    · rw [if_neg h2, nextDate]
      have hm : m = 1 := by omega
      have h31 : daysInMonth (y - 1) 12 = 31 := by simp [daysInMonth]
      rw [if_neg (by rw [h31]; omega)]
      rw [if_neg (by omega)]
      simp only [Prod.mk.injEq]
      refine ⟨?_, ?_, ?_⟩ <;> first | trivial | omega

theorem daysInMonth_pos (y : Int) (m : Nat) : 0 < daysInMonth y m := by
  rw [daysInMonth]
  split_ifs <;> simp

/-- The `−9h` then `+9h` shift is the identity on valid calendar
date-times: the core of the parse/display round trip. -/
theorem addHoursC_round {dt : CivilDateTime} (h : validDT dt) :
    addHoursC 9 (addHoursC (-9) dt) = dt := by
  obtain ⟨hm1, hm2, hd1, hd2, hh, hmin, hsec⟩ := h
  rw [addHoursC, addHoursC]
  set M : Int := (dt.hour : Int) * 60 + (dt.minute : Int) with hM
  have hM0 : 0 ≤ M := by positivity
  have hM1 : M < 1440 := by omega
  by_cases hc : 540 ≤ M
  · have e1 : (M + -9 * 60) / 1440 = 0 := by omega
    have e2 : ((M + -9 * 60) % 1440).toNat = (M - 540).toNat := by omega
    rw [e1, e2]
    rw [show shiftDate 0 (dt.year, dt.month, dt.day) = (dt.year, dt.month, dt.day) by
      rw [shiftDate, if_pos le_rfl]; simp]
    simp only []
    have e3 : (((M - 540).toNat / 60 : Nat) : Int) * 60 + (((M - 540).toNat % 60 : Nat) : Int) + 9 * 60 = M := by
      omega
    rw [e3, show M / 1440 = 0 by omega]
    rw [show shiftDate 0 (dt.year, dt.month, dt.day) = (dt.year, dt.month, dt.day) by
      rw [shiftDate, if_pos le_rfl]; simp]
    have e4 : (M % 1440).toNat = dt.hour * 60 + dt.minute := by omega
    rw [e4]
    cases dt
    simp_all
    omega
  · have e1 : (M + -9 * 60) / 1440 = -1 := by omega
    have e2 : ((M + -9 * 60) % 1440).toNat = (M + 900).toNat := by omega
    rw [e1, e2]
    rw [show shiftDate (-1) (dt.year, dt.month, dt.day) = prevDate (dt.year, dt.month, dt.day) by
      rw [shiftDate, if_neg (by omega)]; simp]
    simp only []
    have e3 : (((M + 900).toNat / 60 : Nat) : Int) * 60 + (((M + 900).toNat % 60 : Nat) : Int) + 9 * 60 = M + 1440 := by
      omega
    rw [e3, show (M + 1440) / 1440 = 1 by omega]
    rw [show ∀ p, shiftDate 1 p = nextDate p by
      intro p; rw [shiftDate, if_pos (by omega)]; simp]
    rw [nextDate_prevDate hm1 hm2 hd1 hd2]
    have e4 : ((M + 1440) % 1440).toNat = dt.hour * 60 + dt.minute := by omega
    rw [e4]
    cases dt
    simp_all
    omega

/-! ## date-fns `parseISO` and `format`, restricted to the shapes the bot
produces (`YYYY-MM-DDTHH:mm` and `YYYY-MM-DDTHH:mm:ss`) -/

/-- Parse `YYYY-MM-DD` with calendar validation (month `1`–`12`, day
within the month, as `parseISO` checks). -/
def parseDatePart (l : List Char) : Option (Int × Nat × Nat) :=
  match parseDigitsAux 4 0 l with
  | none => none
  | some (y, r1) =>
    match expectChar '-' r1 with
    | none => none
    | some r2 =>
      match parseDigitsAux 2 0 r2 with
      | none => none
      | some (mo, r3) =>
        match expectChar '-' r3 with
        | none => none
        | some r4 =>
          match parseDigitsAux 2 0 r4 with
          | none => none
          | some (dy, r5) =>
            if r5 = [] ∧ 1 ≤ mo ∧ mo ≤ 12 ∧ 1 ≤ dy ∧ dy ≤ daysInMonth (Int.ofNat y) mo
            then some (Int.ofNat y, mo, dy) else none

/-- Parse `HH:mm` or `HH:mm:ss` with range validation. -/
def parseTimePart (l : List Char) : Option (Nat × Nat × Nat) :=
  match parseDigitsAux 2 0 l with
  | none => none
  | some (h, r1) =>
    match expectChar ':' r1 with
    | none => none
    | some r2 =>
      match parseDigitsAux 2 0 r2 with
      | none => none
      | some (mi, r3) =>
        match r3 with
        | [] => if h ≤ 23 ∧ mi ≤ 59 then some (h, mi, 0) else none
        | _ :: _ =>
          match expectChar ':' r3 with
          | none => none
          | some r4 =>
            match parseDigitsAux 2 0 r4 with
            | none => none
            | some (s, r5) =>
              if r5 = [] ∧ h ≤ 23 ∧ mi ≤ 59 ∧ s ≤ 59 then some (h, mi, s) else none

/-- Does the character list contain `c`?  (JavaScript `String.includes`
for a single character.) -/
def containsChar (c : Char) : List Char → Bool
  | [] => false
  | x :: r => x = c || containsChar c r

/-- `parseISO` on a full date-time string `date T time`. -/
def parseISOCore (l : List Char) : Option CivilDateTime :=
  match l.dropWhile (fun c => c != 'T') with
  | 'T' :: timeChars =>
    match parseDatePart (l.takeWhile (fun c => c != 'T')), parseTimePart timeChars with
    | some (y, mo, dy), some (h, mi, s) => some ⟨y, mo, dy, h, mi, s⟩
    | _, _ => none
  | _ => none

/-- `parseDateTime` from `src/app.ts` (lines 34–49): append `T00:00:00`
when the token has no `'T'`, run `parseISO`, and interpret the result as
Japan time by shifting the instant by `−9` hours. -/
def parseDateTime (dateStr : String) : Option CivilDateTime :=
  let isoString := if containsChar 'T' dateStr.data then dateStr else dateStr ++ "T00:00:00"
  match parseISOCore isoString.data with
  | some d => some (addHoursC (-9) d)
  | none => none

/-- date-fns `format(d, 'yyyy-MM-dd')`. -/
def formatYyyyMmDd (dt : CivilDateTime) : String :=
  ⟨padDigits 4 dt.year.toNat ++ '-' :: padDigits 2 dt.month ++ '-' :: padDigits 2 dt.day⟩

/-- date-fns `format(d, 'yyyyMMdd')` (used in export file names). -/
def formatYyyyMmDdCompact (dt : CivilDateTime) : List Char :=
  padDigits 4 dt.year.toNat ++ padDigits 2 dt.month ++ padDigits 2 dt.day

/-- date-fns `format(d, 'yyyy-MM-dd HH:mm:ss')` (message timestamps). -/
def formatFullDateTime (dt : CivilDateTime) : String :=
  ⟨padDigits 4 dt.year.toNat ++ '-' :: padDigits 2 dt.month ++ '-' :: padDigits 2 dt.day ++
   ' ' :: padDigits 2 dt.hour ++ ':' :: padDigits 2 dt.minute ++ ':' :: padDigits 2 dt.second⟩

theorem parseDigits_inv {k : Nat} {l : List Char} {v : Nat} {r : List Char}
    (h : parseDigitsAux k 0 l = some (v, r)) : v < 10 ^ k ∧ l = padDigits k v ++ r := by
  obtain ⟨t, ht, hv, hl⟩ := parseDigitsAux_inv k 0 l v r h
  obtain rfl : t = v := by omega
  exact ⟨ht, hl⟩

theorem parseDatePart_inv {l : List Char} {y : Int} {mo dy : Nat}
    (h : parseDatePart l = some (y, mo, dy)) :
    (∃ yn : Nat, y = Int.ofNat yn ∧ yn < 10000 ∧
      l = padDigits 4 yn ++ '-' :: padDigits 2 mo ++ '-' :: padDigits 2 dy) ∧
    1 ≤ mo ∧ mo ≤ 12 ∧ 1 ≤ dy ∧ dy ≤ daysInMonth y mo := by
  rw [parseDatePart] at h
  split at h
  · cases h
  · rename_i h1
    split at h
    · cases h
    · rename_i h2
      split at h
      · cases h
      · rename_i h3
        split at h
        · cases h
        · rename_i h4
          split at h
          · cases h
          · rename_i h5
            split_ifs at h with hc
            cases h
            obtain ⟨hr5, hmo1, hmo2, hdy1, hdy2⟩ := hc
            obtain ⟨hty, hly⟩ := parseDigits_inv h1
            obtain ⟨htm, hlm⟩ := parseDigits_inv h3
            obtain ⟨htd, hld⟩ := parseDigits_inv h5
            refine ⟨⟨_, rfl, by omega, ?_⟩, hmo1, hmo2, hdy1, hdy2⟩
            rw [hly, expectChar_inv h2, hlm, expectChar_inv h4, hld, hr5]
            simp

theorem parseTimePart_zeros :
    parseTimePart ('0' :: '0' :: ':' :: '0' :: '0' :: ':' :: '0' :: '0' :: []) = some (0, 0, 0) := by
  rfl

/-- JavaScript `<` on `Date` instants, expressed on the civil rendering
(lexicographic order on the calendar fields, which is the instant
order). -/
def civilLtb (a b : CivilDateTime) : Bool :=
  if a.year ≠ b.year then a.year < b.year
  else if a.month ≠ b.month then a.month < b.month
  else if a.day ≠ b.day then a.day < b.day
  else if a.hour ≠ b.hour then a.hour < b.hour
  else if a.minute ≠ b.minute then a.minute < b.minute
  else a.second < b.second

theorem splitT_append {l : List Char} (rest : List Char) (h : containsChar 'T' l = false) :
    (l ++ 'T' :: rest).takeWhile (fun c => c != 'T') = l ∧
    (l ++ 'T' :: rest).dropWhile (fun c => c != 'T') = 'T' :: rest := by
  induction l with
  | nil => constructor <;> simp
  | cons a l ih =>
    simp only [containsChar, Bool.or_eq_false_iff] at h
    obtain ⟨ha, hl⟩ := h
    have ha' : a ≠ 'T' := by simpa using ha
    obtain ⟨ih1, ih2⟩ := ih hl
    constructor
    · simp only [List.cons_append, List.takeWhile_cons]
      simp [ha', ih1]
    · simp only [List.cons_append, List.dropWhile_cons]
      simp [ha', ih2]

theorem parseISOCore_append {l : List Char} (hT : containsChar 'T' l = false) :
    parseISOCore (l ++ 'T' :: "00:00:00".data) =
      match parseDatePart l with
      | some (y, mo, dy) => some ⟨y, mo, dy, 0, 0, 0⟩
      | none => none := by
  obtain ⟨htake, hdrop⟩ := splitT_append "00:00:00".data hT
  rw [parseISOCore, hdrop, htake]
  cases hpd : parseDatePart l with
  | none => rfl
  | some p =>
    obtain ⟨y, q⟩ := p
    obtain ⟨mo, dy⟩ := q
    rfl

/-- On a token without `'T'`, `parseDateTime` appends `T00:00:00`, parses
the date part and shifts by `−9` hours. -/
theorem parseDateTime_noT {s : String} {dt : CivilDateTime}
    (hT : containsChar 'T' s.data = false) (h : parseDateTime s = some dt) :
    ∃ y mo dy, parseDatePart s.data = some (y, mo, dy) ∧
      dt = addHoursC (-9) ⟨y, mo, dy, 0, 0, 0⟩ := by
  rw [parseDateTime] at h
  simp only [hT, Bool.false_eq_true, if_false] at h
  rw [String.data_append] at h
  rw [show "T00:00:00".data = 'T' :: "00:00:00".data from rfl] at h
  rw [parseISOCore_append hT] at h
  split at h
  · rename_i d hd
    cases h
    split at hd
    · rename_i y mo dy hpd
      cases hd
      exact ⟨y, mo, dy, hpd, rfl⟩
    · cases hd
  · cases h

/-- A date-only token that parses successfully is reproduced exactly by
rendering the `+9h`-shifted window bound with `format('yyyy-MM-dd')`. -/
theorem formatYyyyMmDd_roundtrip {s : String} {dt : CivilDateTime}
    (hT : containsChar 'T' s.data = false) (h : parseDateTime s = some dt) :
    formatYyyyMmDd (addHoursC 9 dt) = s := by
  obtain ⟨y, mo, dy, hpd, rfl⟩ := parseDateTime_noT hT h
  obtain ⟨⟨yn, hy, hyn, hl⟩, hmo1, hmo2, hdy1, hdy2⟩ := parseDatePart_inv hpd
  have hval : validDT ⟨y, mo, dy, 0, 0, 0⟩ :=
    ⟨hmo1, hmo2, hdy1, hdy2, by norm_num, by norm_num, by norm_num⟩
  rw [addHoursC_round hval]
  subst hy
  apply String.ext
  show padDigits 4 yn ++ '-' :: padDigits 2 mo ++ '-' :: padDigits 2 dy = s.data
  exact hl.symm

/-- C7 (amended): for every pair of *date-only* tokens accepted by the
resolver with `start < end`, the window bounds converted back to local
display time (adding 9 hours) and rendered with the source's
`format('yyyy-MM-dd')` reproduce the input tokens exactly.  (The claim as
frozen also covers date-*time* tokens; those are refuted by
`c7_roundtrip_counterexample` because the display renders only the
calendar date.) -/
theorem c7_window_display_roundtrip (s e : String) (ds de : CivilDateTime)
    (hsT : containsChar 'T' s.data = false) (heT : containsChar 'T' e.data = false)
    (hs : parseDateTime s = some ds) (he : parseDateTime e = some de)
    (_hlt : civilLtb ds de = true) :
    formatYyyyMmDd (addHoursC 9 ds) = s ∧ formatYyyyMmDd (addHoursC 9 de) = e :=
  ⟨formatYyyyMmDd_roundtrip hsT hs, formatYyyyMmDd_roundtrip heT he⟩

/-- C7, counterexample to the claim as frozen: the valid token pair
`("2024-01-02T10:30", "2024-01-03")` resolves with `start < end`, but the
start bound converted back to local display time renders as
`"2024-01-02"`, not the input token. -/
theorem c7_roundtrip_counterexample :
    parseDateTime "2024-01-02T10:30" = some ⟨2024, 1, 2, 1, 30, 0⟩ ∧
    parseDateTime "2024-01-03" = some ⟨2024, 1, 2, 15, 0, 0⟩ ∧
    civilLtb ⟨2024, 1, 2, 1, 30, 0⟩ ⟨2024, 1, 2, 15, 0, 0⟩ = true ∧
    formatYyyyMmDd (addHoursC 9 ⟨2024, 1, 2, 1, 30, 0⟩) = "2024-01-02" ∧
    "2024-01-02" ≠ "2024-01-02T10:30" := by
  refine ⟨by decide, by decide, by decide, by decide, by decide⟩

/-- C7, witness: the amended round-trip theorem applied to the concrete
token pair `("2024-01-02", "2024-01-10")`. -/
theorem c7_window_display_roundtrip_witness :
    formatYyyyMmDd (addHoursC 9 ⟨2024, 1, 1, 15, 0, 0⟩) = "2024-01-02" ∧
    formatYyyyMmDd (addHoursC 9 ⟨2024, 1, 9, 15, 0, 0⟩) = "2024-01-10" :=
  c7_window_display_roundtrip "2024-01-02" "2024-01-10"
    ⟨2024, 1, 1, 15, 0, 0⟩ ⟨2024, 1, 9, 15, 0, 0⟩
    (by decide) (by decide) (by decide) (by decide) (by decide)

/-! ## Slack messages and the renderer -/

/-- A Slack message as the export pipeline reads it: `ts` is the unique
fractional-seconds timestamp string; `user`, `text` and `thread_ts` may be
absent (JavaScript `undefined`). -/
structure Message where
  ts : String
  user : Option String
  text : Option String
  thread_ts : Option String
  deriving DecidableEq, Repr

/-- Seconds part of `parseFloat(message.ts)`: the leading decimal digits.
Message rendering only ever displays whole seconds (`new Date(sec*1000)`
formatted to second precision), so the fractional part does not reach the
formatted output. -/
def tsEpochSeconds (ts : String) : Int :=
  Int.ofNat ((ts.data.takeWhile Char.isDigit).foldl (fun acc c => acc * 10 + (digitVal c).getD 0) 0)

/-- Hinnant's `civil_from_days`: Gregorian calendar date of a day count
relative to 1970-01-01 (used to evaluate the rendering of message
timestamps). -/
def civilFromDays (z0 : Int) : Int × Nat × Nat :=
  let z := z0 + 719468
  let era : Int := z / 146097
  let doe : Int := z - era * 146097
  let yoe : Int := (doe - doe / 1460 + doe / 36524 - doe / 146096) / 365
  let y : Int := yoe + era * 400
  let doy : Int := doe - (365 * yoe + yoe / 4 - yoe / 100)
  let mp : Int := (5 * doy + 2) / 153
  let d : Int := doy - (153 * mp + 2) / 5 + 1
  let m : Int := mp + (if mp < 10 then 3 else -9)
  ((if m ≤ 2 then y + 1 else y), m.toNat, d.toNat)

/-- Civil rendering of an epoch-second instant (what `format` prints for a
`Date` holding this instant, under the UTC server clock). -/
def epochSecToCivil (sec : Int) : CivilDateTime :=
  let days : Int := sec / 86400
  let sod : Nat := (sec % 86400).toNat
  let p := civilFromDays days
  ⟨p.1, p.2.1, p.2.2, sod / 3600, sod % 3600 / 60, sod % 60⟩

/-- Author-name resolution from line 56 / 67 of `src/app.ts`:
`users.get(message.user) || message.user || 'Unknown User'`.
JavaScript `||` skips *falsy* values, so an empty-string display name or
an empty-string user id falls through. -/
def resolveUserName (users : String → Option String) (user : Option String) : String :=
  let got : Option String := match user with
    | some u => users u
    | none => none
  let second : String := match user with
    | some u => u
    | none => ""
  match got with
  | some name => if name ≠ "" then name else (if second ≠ "" then second else "Unknown User")
  | none => if second ≠ "" then second else "Unknown User"

/-- `formatMessage` (lines 52–60): `{indent}[{time}] {user}: {text}` with
the timestamp shifted to Japan time. -/
def formatMessage (message : Message) (users : String → Option String) (indent : String) : String :=
  let formattedTime := formatFullDateTime (epochSecToCivil (tsEpochSeconds message.ts + 9 * 3600))
  let userName := resolveUserName users message.user
  let text := message.text.getD ""
  indent ++ "[" ++ formattedTime ++ "] " ++ userName ++ ": " ++ text

/-- `formatMessageMarkdown` (lines 63–76): heading block for top-level
messages, quoted block for indented replies (`if (indent)` tests string
truthiness, so the empty indent selects the heading form). -/
def formatMessageMarkdown (message : Message) (users : String → Option String) (indent : String) : String :=
  let formattedTime := formatFullDateTime (epochSecToCivil (tsEpochSeconds message.ts + 9 * 3600))
  let userName := resolveUserName users message.user
  let text := message.text.getD ""
  if indent ≠ "" then
    indent ++ "> **" ++ userName ++ "** `" ++ formattedTime ++ "`\n" ++ indent ++ "> " ++ text ++ "\n"
  else
    "### " ++ userName ++ " `" ++ formattedTime ++ "`\n\n" ++ text ++ "\n"

/-- The claim's reading of author resolution, following the spec's words
`userDirectory.get(authorId) ?? authorId ?? "Unknown User"`: take the
first *defined* value, even when it is the empty string. -/
def resolveUserNameClaimed (users : String → Option String) (user : Option String) : String :=
  match (match user with | some u => users u | none => none) with
  | some name => name
  | none =>
    match user with
    | some u => u
    | none => "Unknown User"

/-- C8, counterexample to the claim as frozen: when the directory maps the
author id `"U1"` to the *empty-string* display name, the code renders the
raw id `"U1"` (JavaScript `||` skips the falsy empty string), not the
"first defined value" `""` demanded by the claim. -/
theorem c8_author_fallback_counterexample :
    resolveUserName (fun u => if u = "U1" then some "" else none) (some "U1") = "U1" ∧
    resolveUserNameClaimed (fun u => if u = "U1" then some "" else none) (some "U1") = "" ∧
    ("U1" : String) ≠ "" := by
  refine ⟨by decide, by decide, by decide⟩

/-- C8 (amended): the rendered author name is the first *non-empty*
value among `userDirectory.get(authorId)`, `authorId`, `"Unknown User"`,
in that order: a non-empty directory entry wins; an absent, or present
but empty, entry falls through to the raw id when that is non-empty; and
an absent or empty author id (regardless of what the directory returns
for the empty id being absent or empty) renders as `"Unknown User"`. -/
theorem c8_author_fallback (users : String → Option String) (user : Option String) :
    (∀ u name, user = some u → users u = some name → name ≠ "" →
      resolveUserName users user = name) ∧
    (∀ u, user = some u → u ≠ "" → (users u = none ∨ users u = some "") →
      resolveUserName users user = u) ∧
    ((user = none ∨ user = some "") →
      ((match user with | some u => users u | none => none) = none ∨
       (match user with | some u => users u | none => none) = some "") →
      resolveUserName users user = "Unknown User") := by
  refine ⟨?_, ?_, ?_⟩
  · intro u name hu hname hne
    subst hu
    rw [resolveUserName]
    simp only [hname]
    rw [if_pos hne]
  · intro u hu hne hdir
    subst hu
    rw [resolveUserName]
    rcases hdir with hdir | hdir <;> simp only [hdir] <;> rw [if_pos hne]
    simp
  · intro huser hdir
    rcases huser with hu | hu <;> subst hu <;> rw [resolveUserName] <;>
      rcases hdir with hdir | hdir <;> simp only [] at hdir ⊢ <;> simp [hdir]

/-- C8, witness: a directory entry `"U2" ↦ "Alice"` renders as `"Alice"`;
an id `"U3"` absent from the directory renders as the raw id; an absent
author id renders as `"Unknown User"`. -/
theorem c8_author_fallback_witness :
    resolveUserName (fun u => if u = "U2" then some "Alice" else none) (some "U2") = "Alice" ∧
    resolveUserName (fun u => if u = "U2" then some "Alice" else none) (some "U3") = "U3" ∧
    resolveUserName (fun u => if u = "U2" then some "Alice" else none) none = "Unknown User" :=
  ⟨(c8_author_fallback (fun u => if u = "U2" then some "Alice" else none) (some "U2")).1
      "U2" "Alice" rfl (by decide) (by decide),
   (c8_author_fallback (fun u => if u = "U2" then some "Alice" else none) (some "U3")).2.1
      "U3" rfl (by decide) (Or.inl (by decide)),
   (c8_author_fallback (fun u => if u = "U2" then some "Alice" else none) none).2.2
      (Or.inl rfl) (Or.inl rfl)⟩

/-! ## Rate-limited reply fetcher (`getThreadReplies`, lines 79–122) -/

/-- The failure object thrown by the Slack client: an error `code` and an
optional `retryAfter` duration in seconds. -/
structure SlackError where
  code : String
  retryAfter : Option Nat
  deriving DecidableEq, Repr

/-- Outcome of one `conversations.replies` call: success (whose
`messages` field may be absent) or a thrown failure. -/
inductive CallResult where
  | ok (messages : Option (List Message))
  | fail (e : SlackError)
  deriving DecidableEq, Repr

/-- The remote behaviour seen by one `getThreadReplies` invocation: the
outcome of the first call and, should it be consulted, of the retry. -/
structure ReplyEnv where
  attempt1 : CallResult
  attempt2 : CallResult
  deriving DecidableEq, Repr

/-- Observable result of `getThreadReplies`: the returned replies, every
sleep performed (milliseconds, in order) and how many remote calls were
made. -/
structure ReplyFetchResult where
  replies : List Message
  sleeps : List Nat
  attempts : Nat
  deriving DecidableEq, Repr

/-- `result.messages && result.messages.length > 1` guards `slice(1)`;
anything else produces the empty reply list. -/
def repliesOf : Option (List Message) → List Message
  | some ms => if ms.length > 1 then ms.drop 1 else []
  | none => []

/-- The rate-limit error code tested at line 99. -/
def rateLimitCode : String := "slack_webapi_rate_limited"

/-- `getThreadReplies` (lines 79–122): a mandatory 5000 ms pre-call sleep,
one call, and — only for a rate-limit failure — one `retryAfter || 60`
second sleep and exactly one retry.  Every failure path returns `[]`.
(`e.retryAfter` is a JavaScript number; `retryAfter || 60` also replaces
an explicit `0` by `60`, which is why the zero case maps to `60` here.) -/
def getThreadReplies (env : ReplyEnv) : ReplyFetchResult :=
  match env.attempt1 with
  | CallResult.ok msgs => ⟨repliesOf msgs, [5000], 1⟩
  | CallResult.fail e =>
    if e.code = rateLimitCode then
      let retryAfter : Nat := match e.retryAfter with
        | some n => if n ≠ 0 then n else 60
        | none => 60
      match env.attempt2 with
      | CallResult.ok msgs => ⟨repliesOf msgs, [5000, retryAfter * 1000], 2⟩
      | CallResult.fail _ => ⟨[], [5000, retryAfter * 1000], 2⟩
    else ⟨[], [5000], 1⟩

/-- C2, counterexample to the claim as frozen: when the rate-limit
failure carries the *present* retry-after duration `0`, the code sleeps
`60` seconds before the retry (JavaScript `0 || 60`), not the failure's
duration `0` that the claim prescribes for any present duration. -/
theorem c2_reply_fetcher_counterexample :
    (getThreadReplies ⟨CallResult.fail ⟨"slack_webapi_rate_limited", some 0⟩,
        CallResult.ok (some [⟨"1.000000", some "U1", some "root", some "1.000000"⟩,
                             ⟨"1.100000", some "U2", some "reply", some "1.000000"⟩])⟩).sleeps
      = [5000, 60000] ∧
    (0 : Nat) * 1000 ≠ 60000 := by
  refine ⟨by decide, by decide⟩

/-- C2 (amended): for every invocation of the reply fetcher on one thread
root: a successful first call makes exactly one remote call; any
non-rate-limit failure returns the empty reply set after exactly one
call; a rate-limit failure sleeps the failure's retry-after duration
(60 s when the duration is absent *or zero*) exactly once, makes exactly
one retry — never more than two calls in total — and returns the retry's
replies (its messages after the thread root) on success with more than
one message, and the empty set on the retry's failure. -/
theorem c2_reply_fetcher (env : ReplyEnv) :
    (getThreadReplies env).attempts ≤ 2 ∧
    (∀ msgs, env.attempt1 = CallResult.ok msgs →
      getThreadReplies env = ⟨repliesOf msgs, [5000], 1⟩) ∧
    (∀ e, env.attempt1 = CallResult.fail e → e.code ≠ rateLimitCode →
      getThreadReplies env = ⟨[], [5000], 1⟩) ∧
    (∀ e, env.attempt1 = CallResult.fail e → e.code = rateLimitCode →
      (getThreadReplies env).sleeps =
        [5000, (match e.retryAfter with
                | some n => if n ≠ 0 then n else 60
                | none => 60) * 1000] ∧
      (getThreadReplies env).attempts = 2 ∧
      (∀ ms, env.attempt2 = CallResult.ok (some ms) → ms.length > 1 →
        (getThreadReplies env).replies = ms.drop 1) ∧
      (∀ e2, env.attempt2 = CallResult.fail e2 →
        (getThreadReplies env).replies = [])) := by
  obtain ⟨a1, a2⟩ := env
  refine ⟨?_, ?_, ?_, ?_⟩
  · cases a1 with
    | ok msgs => simp [getThreadReplies]
    | fail e =>
      simp only [getThreadReplies]
      split_ifs with hc
      · cases a2 <;> simp
      · simp
  · intro msgs h1
    cases h1
    rfl
  · intro e h1 hne
    cases h1
    simp only [getThreadReplies]
    rw [if_neg hne]
  · intro e h1 hcode
    cases h1
    have hg : getThreadReplies ⟨CallResult.fail e, a2⟩ =
        (match a2 with
         | CallResult.ok msgs =>
           ⟨repliesOf msgs,
            [5000, (match e.retryAfter with
                    | some n => if n ≠ 0 then n else 60
                    | none => 60) * 1000], 2⟩
         | CallResult.fail _ =>
           ⟨[], [5000, (match e.retryAfter with
                        | some n => if n ≠ 0 then n else 60
                        | none => 60) * 1000], 2⟩) := by
      simp only [getThreadReplies]
      rw [if_pos hcode]
    rw [hg]
    cases a2 with
    | ok msgs =>
      refine ⟨rfl, rfl, ?_, ?_⟩
      · intro ms hms hlen
        cases hms
        simp [repliesOf, hlen]
      · intro e2 he2
        cases he2
    | fail e2 =>
      refine ⟨rfl, rfl, ?_, ?_⟩
      · intro ms hms hlen
        cases hms
      · intro e2' he2
        rfl

/-- C2, witness: the spec's own scenario — a rate-limit failure with
retry-after `2` followed by a successful retry: the fetcher sleeps
`5000` ms then `2000` ms, and returns exactly the retry's replies. -/
theorem c2_reply_fetcher_witness :
    (getThreadReplies ⟨CallResult.fail ⟨"slack_webapi_rate_limited", some 2⟩,
        CallResult.ok (some [⟨"1.000000", some "U1", some "root", some "1.000000"⟩,
                             ⟨"1.100000", some "U2", some "reply", some "1.000000"⟩])⟩).sleeps
      = [5000, 2000] ∧
    (getThreadReplies ⟨CallResult.fail ⟨"slack_webapi_rate_limited", some 2⟩,
        CallResult.ok (some [⟨"1.000000", some "U1", some "root", some "1.000000"⟩,
                             ⟨"1.100000", some "U2", some "reply", some "1.000000"⟩])⟩).replies
      = [⟨"1.100000", some "U2", some "reply", some "1.000000"⟩] := by
  have h := c2_reply_fetcher ⟨CallResult.fail ⟨"slack_webapi_rate_limited", some 2⟩,
      CallResult.ok (some [⟨"1.000000", some "U1", some "root", some "1.000000"⟩,
                           ⟨"1.100000", some "U2", some "reply", some "1.000000"⟩])⟩
  obtain ⟨hs, hat, hok, hfail⟩ := h.2.2.2 ⟨"slack_webapi_rate_limited", some 2⟩ rfl (by decide)
  refine ⟨by simpa using hs, ?_⟩
  have := hok [⟨"1.000000", some "U1", some "root", some "1.000000"⟩,
               ⟨"1.100000", some "U2", some "reply", some "1.000000"⟩] rfl (by decide)
  simpa using this

/-! ## Paginated history fetch (lines 290–311) -/

/-- One page from `conversations.history`: messages plus
`response_metadata?.next_cursor` (absent or possibly empty). -/
structure HistoryPage where
  messages : List Message
  next_cursor : Option String
  deriving DecidableEq, Repr

/-- The loop guard `while (cursor)`: an absent or *empty* cursor is falsy
and stops the loop. -/
def nextCursor (p : HistoryPage) : Option String :=
  match p.next_cursor with
  | some c => if c = "" then none else some c
  | none => none

/-- The `do … while (cursor)` pagination loop, with the remote endpoint
as an oracle from the requested cursor to a page.  Explicit fuel makes
the (possibly non-terminating) loop total: `none` means the loop was
still running after `fuel` iterations.  Returns the accumulated messages
and the page count. -/
def fetchLoop (remote : Option String → HistoryPage) :
    Nat → Option String → List Message → Nat → Option (List Message × Nat)
  | 0, _, _, _ => none
  | fuel + 1, cursor, acc, pageCount =>
    let page := remote cursor
    match nextCursor page with
    | none => some (acc ++ page.messages, pageCount + 1)
    | some c => fetchLoop remote fuel (some c) (acc ++ page.messages) (pageCount + 1)

/-- The cursor requested on the `i`-th iteration of the loop (the first
iteration passes no cursor). -/
def cursorChain (remote : Option String → HistoryPage) : Nat → Option String
  | 0 => none
  | k + 1 => nextCursor (remote (cursorChain remote k))

/-- Concatenated messages of `n` consecutive pages starting at
iteration `j`. -/
def pagesFrom (remote : Option String → HistoryPage) : Nat → Nat → List Message
  | _, 0 => []
  | j, n + 1 => (remote (cursorChain remote j)).messages ++ pagesFrom remote (j + 1) n

theorem fetchLoop_succ (remote : Option String → HistoryPage) (fuel : Nat)
    (cursor : Option String) (acc : List Message) (pc : Nat) :
    fetchLoop remote (fuel + 1) cursor acc pc =
      match nextCursor (remote cursor) with
      | none => some (acc ++ (remote cursor).messages, pc + 1)
      | some c => fetchLoop remote fuel (some c) (acc ++ (remote cursor).messages) (pc + 1) :=
  rfl

theorem fetchLoop_terminates_aux (remote : Option String → HistoryPage) (k : Nat)
    (hterm : nextCursor (remote (cursorChain remote k)) = none)
    (hcont : ∀ i, i < k → nextCursor (remote (cursorChain remote i)) ≠ none) :
    ∀ (m j : Nat) (acc : List Message) (pc : Nat), j + m = k + 1 → j ≤ k →
      fetchLoop remote m (cursorChain remote j) acc pc =
        some (acc ++ pagesFrom remote j (k + 1 - j), pc + (k + 1 - j)) := by
  intro m
  induction m with
  | zero => intro j acc pc hjm hjk; omega
  | succ m ih =>
    intro j acc pc hjm hjk
    rw [fetchLoop_succ]
    by_cases hj : j = k
    · subst hj
      simp only [hterm]
      rw [show j + 1 - j = 1 from by omega]
      simp [pagesFrom]
    · have hjk' : j < k := by omega
      cases hnc : nextCursor (remote (cursorChain remote j)) with
      | none => exact absurd hnc (hcont j hjk')
      | some c =>
        show fetchLoop remote m (some c) (acc ++ (remote (cursorChain remote j)).messages)
            (pc + 1) = some (acc ++ pagesFrom remote j (k + 1 - j), pc + (k + 1 - j))
        have hchain : cursorChain remote (j + 1) = some c := by
          rw [cursorChain, hnc]
        rw [← hchain]
        rw [ih (j + 1) (acc ++ (remote (cursorChain remote j)).messages) (pc + 1)
          (by omega) (by omega)]
        rw [show k + 1 - (j + 1) = k - j from by omega]
        rw [show k + 1 - j = (k - j) + 1 from by omega]
        rw [pagesFrom]
        simp only [List.append_assoc, Option.some.injEq, Prod.mk.injEq]
        exact ⟨trivial, by omega⟩

/-- An oscillating remote: the cursor cycles `a, b, a, b, …` forever, so
the cursor value `a` repeats from iteration 3 on. -/
def oscRemote : Option String → HistoryPage :=
  fun c =>
    match c with
    | none => ⟨[], some "a"⟩
    | some s => if s = "a" then ⟨[], some "b"⟩ else ⟨[], some "a"⟩

/-- C5, counterexample to the claim as frozen: against `oscRemote` the
requested cursor repeats (`a` at iterations 1 and 3), yet the loop is
still running after 50 iterations — the code has no repeated-cursor
guard, so it spins on an oscillating cursor instead of treating the
repeat as exhaustion. -/
theorem c5_pagination_counterexample :
    cursorChain oscRemote 1 = some "a" ∧ cursorChain oscRemote 3 = some "a" ∧
    fetchLoop oscRemote 50 none [] 0 = none := by
  refine ⟨by decide, by decide, by decide⟩

/-- C5 (amended): the pagination loop stops exactly when the remote's
cursor chain reaches an absent (or empty, hence falsy) next-cursor: if
that happens on iteration `k`, the loop terminates after `k + 1` pages
with the in-order concatenation of all pages — in particular an empty
first page with no cursor yields the empty message list without error.
(The frozen claim's repeated-cursor guard does not exist in the code; see
the counterexample.) -/
theorem c5_pagination_terminates (remote : Option String → HistoryPage) (k : Nat)
    (hterm : nextCursor (remote (cursorChain remote k)) = none)
    (hcont : ∀ i, i < k → nextCursor (remote (cursorChain remote i)) ≠ none) :
    fetchLoop remote (k + 1) none [] 0 = some (pagesFrom remote 0 (k + 1), k + 1) := by
  have h := fetchLoop_terminates_aux remote k hterm hcont (k + 1) 0 [] 0 (by omega) (by omega)
  rw [show cursorChain remote 0 = none from rfl] at h
  simpa using h

/-- C5, witness: a two-page remote (second page with an empty string
cursor, i.e. falsy) terminates with both pages concatenated in order;
obtained by applying the termination theorem at `k = 1`. -/
theorem c5_pagination_terminates_witness :
    fetchLoop
      (fun c =>
        match c with
        | none => ⟨[⟨"1.000000", some "U1", some "a", none⟩], some "c1"⟩
        | some s =>
          if s = "c1" then ⟨[⟨"2.000000", some "U2", some "b", none⟩], some ""⟩
          else ⟨[], none⟩)
      2 none [] 0 =
      some ([⟨"1.000000", some "U1", some "a", none⟩,
             ⟨"2.000000", some "U2", some "b", none⟩], 2) := by
  have h := c5_pagination_terminates
    (fun c =>
      match c with
      | none => ⟨[⟨"1.000000", some "U1", some "a", none⟩], some "c1"⟩
      | some s =>
        if s = "c1" then ⟨[⟨"2.000000", some "U2", some "b", none⟩], some ""⟩
        else ⟨[], none⟩)
    1 (by decide) (by decide)
  rw [h]
  rfl

/-! ## Thread reassembly (lines 344–397) -/

/-- `msg.thread_ts && msg.thread_ts === msg.ts` (line 347): the message is
its own thread root.  An absent or empty (falsy) `thread_ts` fails the
first conjunct. -/
def isThreadParent (m : Message) : Bool :=
  match m.thread_ts with
  | some t => decide (t ≠ "" ∧ t = m.ts)
  | none => false

/-- The thread-root subset, in primary order (line 347). -/
def threadParents (messages : List Message) : List Message :=
  messages.filter isThreadParent

/-- JavaScript `String.includes`: does `needle` occur as a contiguous
substring of `hay`?  (Line 376 searches the parent's raw `ts` inside the
already-rendered lines with exactly this test.) -/
def containsSubstr (hay needle : String) : Bool :=
  hay.data.tails.any (fun t => needle.data.isPrefixOf t)

/-- `array.splice(p + 1, 0, ...items)` when `findIndex` returned `p`
(`some p` here); `findIndex = -1` (`none`) leaves the array unchanged. -/
def spliceAfter (pIdx : Option Nat) (items l : List String) : List String :=
  match pIdx with
  | some p => l.take (p + 1) ++ items ++ l.drop (p + 1)
  | none => l

/-- `Math.ceil((threads * 5) / 60)`: the remaining-time estimate in
minutes for `threads` remaining threads at five seconds each. -/
def estimateMinutes (threads : Nat) : Nat := (threads * 5 + 59) / 60

/-- State carried through the thread loop: the two transcripts, the
running message count, and the progress notifications sent so far (each
as the zero-based thread index it was sent after, with the estimated
remaining minutes it carried). -/
structure ThreadState where
  allMessages : List String
  allMessagesMarkdown : List String
  totalMessageCount : Nat
  progressEvents : List (Nat × Nat)
  deriving DecidableEq, Repr

/-- One iteration of the thread loop (lines 368–397): fetch the replies,
add their number to the running count, locate the parent line by
`findIndex(m => m.includes(msg.ts))`, splice both transcripts at that
positional index, and send a progress notification when
`(i + 1) % 10 === 0 && i < threadMessages.length - 1`. -/
def threadStep (users : String → Option String) (replyEnvOf : String → ReplyEnv) (n : Nat)
    (st : ThreadState) (im : Nat × Message) : ThreadState :=
  let i := im.1
  let msg := im.2
  let replies := (getThreadReplies (replyEnvOf (msg.thread_ts.getD ""))).replies
  let parentIndex := st.allMessages.findIdx? (fun m => containsSubstr m msg.ts)
  ⟨spliceAfter parentIndex (replies.map (fun r => formatMessage r users "  └─ ")) st.allMessages,
   spliceAfter parentIndex (replies.map (fun r => formatMessageMarkdown r users "  ")) st.allMessagesMarkdown,
   st.totalMessageCount + replies.length,
   st.progressEvents ++
     (if (i + 1) % 10 = 0 ∧ i < n - 1 then [(i, estimateMinutes (n - i - 1))] else [])⟩

/-- The thread phase (lines 340–397): render every primary message in
order, then — unless threads are skipped or there are none — run the
thread loop over the thread roots in primary order. -/
def threadLoop (messages : List Message) (users : String → Option String)
    (replyEnvOf : String → ReplyEnv) (skipThreads : Bool) : ThreadState :=
  let init : ThreadState :=
    ⟨messages.map (fun m => formatMessage m users ""),
     messages.map (fun m => formatMessageMarkdown m users ""),
     messages.length, []⟩
  let tm := threadParents messages
  if 0 < tm.length ∧ skipThreads = false then
    (tm.enum).foldl (threadStep users replyEnvOf tm.length) init
  else init

theorem threadStep_total (users : String → Option String) (replyEnvOf : String → ReplyEnv)
    (n : Nat) (st : ThreadState) (im : Nat × Message) :
    (threadStep users replyEnvOf n st im).totalMessageCount
      = st.totalMessageCount + (getThreadReplies (replyEnvOf (im.2.thread_ts.getD ""))).replies.length :=
  rfl

theorem threadStep_events (users : String → Option String) (replyEnvOf : String → ReplyEnv)
    (n : Nat) (st : ThreadState) (im : Nat × Message) :
    (threadStep users replyEnvOf n st im).progressEvents
      = st.progressEvents ++
        (if (im.1 + 1) % 10 = 0 ∧ im.1 < n - 1
         then [(im.1, estimateMinutes (n - im.1 - 1))] else []) :=
  rfl

theorem threadLoop_total_aux (users : String → Option String) (replyEnvOf : String → ReplyEnv)
    (n : Nat) :
    ∀ (l : List Message) (i0 : Nat) (st : ThreadState),
      ((List.enumFrom i0 l).foldl (threadStep users replyEnvOf n) st).totalMessageCount
        = st.totalMessageCount +
          (l.map (fun m => (getThreadReplies (replyEnvOf (m.thread_ts.getD ""))).replies.length)).sum := by
  intro l
  induction l with
  | nil => intro i0 st; simp
  | cons a l ih =>
    intro i0 st
    rw [List.enumFrom_cons, List.foldl_cons, ih (i0 + 1), threadStep_total]
    simp only [List.map_cons, List.sum_cons]
    omega

theorem threadLoop_events_aux (users : String → Option String) (replyEnvOf : String → ReplyEnv)
    (n : Nat) :
    ∀ (l : List Message) (i0 : Nat) (st : ThreadState),
      ((List.enumFrom i0 l).foldl (threadStep users replyEnvOf n) st).progressEvents
        = st.progressEvents ++
          (List.range' i0 l.length).filterMap
            (fun i => if (i + 1) % 10 = 0 ∧ i < n - 1
              then some (i, estimateMinutes (n - i - 1)) else none) := by
  intro l
  induction l with
  | nil => intro i0 st; simp
  | cons a l ih =>
    intro i0 st
    rw [List.enumFrom_cons, List.foldl_cons, ih (i0 + 1), threadStep_events]
    rw [List.length_cons, List.range'_succ, List.filterMap_cons]
    by_cases hc : (i0 + 1) % 10 = 0 ∧ i0 < n - 1
    · rw [if_pos hc, if_pos hc]
      simp
    · rw [if_neg hc, if_neg hc]
      simp

/-- C3: the reported total message count equals the number of primary
messages plus the sum of the lengths of all fetched reply sets (the count
is accumulated incrementally as each thread's replies are fetched, and it
counts *fetched* replies whether or not the splice later finds the
parent); with the skip-threads flag the count is the number of primary
messages alone. -/
theorem c3_total_count (messages : List Message) (users : String → Option String)
    (replyEnvOf : String → ReplyEnv) :
    (threadLoop messages users replyEnvOf false).totalMessageCount
      = messages.length +
        ((threadParents messages).map
          (fun m => (getThreadReplies (replyEnvOf (m.thread_ts.getD ""))).replies.length)).sum ∧
    (threadLoop messages users replyEnvOf true).totalMessageCount = messages.length := by
  constructor
  · simp only [threadLoop]
    by_cases hE : threadParents messages = []
    · rw [hE]
      simp
    · rw [if_pos ⟨List.length_pos.2 hE, trivial⟩]
      rw [show (threadParents messages).enum = List.enumFrom 0 (threadParents messages) from rfl]
      rw [threadLoop_total_aux]
  · simp only [threadLoop]
    rw [if_neg (by simp)]

/-- C4 (amended): during thread processing over `n` thread roots, the
estimate-carrying progress notifications are emitted exactly after every
10th processed thread *other than the final one* (`(i+1) % 10 = 0` and
`i < n - 1`), each carrying the estimate `ceil((n - i - 1) * 5 / 60)`
minutes; no such notification is emitted on the final thread (the frozen
claim's final-thread notification does not exist — the final thread only
logs to the console, and the after-loop completion notice carries no
estimate). -/
theorem c4_progress_schedule (messages : List Message) (users : String → Option String)
    (replyEnvOf : String → ReplyEnv) :
    (threadLoop messages users replyEnvOf false).progressEvents
      = (List.range (threadParents messages).length).filterMap
          (fun i => if (i + 1) % 10 = 0 ∧ i < (threadParents messages).length - 1
            then some (i, estimateMinutes ((threadParents messages).length - i - 1)) else none) := by
  simp only [threadLoop]
  by_cases hE : threadParents messages = []
  · rw [hE]
    simp
  · rw [if_pos ⟨List.length_pos.2 hE, trivial⟩]
    rw [show (threadParents messages).enum = List.enumFrom 0 (threadParents messages) from rfl]
    rw [threadLoop_events_aux]
    simp [List.range_eq_range']

/-- C4, counterexample to the claim as frozen: with a single thread root
(`n = 1`), the claim requires a progress notification on the final
thread (index 0), but the loop emits none at all: the notification guard
`(i + 1) % 10 === 0 && i < threadMessages.length - 1` excludes the final
thread. -/
theorem c4_progress_counterexample :
    (threadParents [⟨"1.000000", some "U1", some "hello", some "1.000000"⟩]).length = 1 ∧
    (threadLoop [⟨"1.000000", some "U1", some "hello", some "1.000000"⟩] (fun _ => none)
      (fun _ => ⟨CallResult.ok (some []), CallResult.ok none⟩) false).progressEvents = [] := by
  refine ⟨by decide, by decide⟩

/-- The concrete user directory, messages and reply environment used to
exhibit the C1 splice bug. -/
def c1Users : String → Option String := fun _ => none

/-- Thread root with ts `1.000000` (C1 failing input). -/
def c1Root : Message := ⟨"1.000000", some "U1", some "hello", some "1.000000"⟩

/-- A later top-level message (C1 failing input). -/
def c1Next : Message := ⟨"2.000000", some "U2", some "world", none⟩

/-- The root's one reply, fetched successfully (C1 failing input). -/
def c1Reply : Message := ⟨"1.500000", some "U3", some "hi", some "1.000000"⟩

/-- Reply oracle for C1: the root's thread fetch succeeds, returning the
root plus one reply. -/
def c1Env : String → ReplyEnv :=
  fun _ => ⟨CallResult.ok (some [c1Root, c1Reply]), CallResult.ok none⟩

/-- C1, the code bug at line 376: `findIndex(m => m.includes(msg.ts))`
searches the parent's raw `ts` inside the *rendered* lines, but rendered
lines contain only the formatted date — never the raw timestamp — so
`parentIndex` is `-1` and the successfully fetched reply is silently
dropped from both transcripts (while still being counted): the total
says 3 messages, the transcripts hold 2 lines and the reply's rendered
line appears in neither. -/
theorem c1_splice_never_finds_parent :
    (threadLoop [c1Root, c1Next] c1Users c1Env false).totalMessageCount = 3 ∧
    ([formatMessage c1Root c1Users "", formatMessage c1Next c1Users ""].findIdx?
        (fun m => containsSubstr m c1Root.ts)) = none ∧
    (threadLoop [c1Root, c1Next] c1Users c1Env false).allMessages
      = [formatMessage c1Root c1Users "", formatMessage c1Next c1Users ""] ∧
    formatMessage c1Reply c1Users "  └─ " ∉
      (threadLoop [c1Root, c1Next] c1Users c1Env false).allMessages ∧
    (threadLoop [c1Root, c1Next] c1Users c1Env false).allMessagesMarkdown
      = [formatMessageMarkdown c1Root c1Users "", formatMessageMarkdown c1Next c1Users ""] := by
  refine ⟨by decide, by decide, by decide, by decide, by decide⟩

/-! ## Chronological sort of the accumulated history (lines 323–324) -/

/-- The numeric value of a ts string as `parseFloat` reads it: integer
part plus fractional digits over the matching power of ten (an exact
rational stand-in for the float comparator). -/
def tsQ (ts : String) : ℚ :=
  let intPart := (ts.data.takeWhile Char.isDigit).foldl
    (fun acc c => acc * 10 + (digitVal c).getD 0) 0
  let fracDigits := ((ts.data.dropWhile Char.isDigit).drop 1).takeWhile Char.isDigit
  let fracPart := fracDigits.foldl (fun acc c => acc * 10 + (digitVal c).getD 0) 0
  (intPart : ℚ) + (fracPart : ℚ) / (10 : ℚ) ^ fracDigits.length

/-- `messages.sort((a, b) => parseFloat(a.ts) - parseFloat(b.ts))`
(line 324): a stable sort by ascending numeric ts value. -/
def sortMessages (messages : List Message) : List Message :=
  messages.mergeSort (fun a b => decide (tsQ a.ts ≤ tsQ b.ts))

/-- C10: before any rendering or thread processing the accumulated
primary list is sorted ascending by the numeric ts key: the sort is a
permutation of the fetched messages, pairwise ascending in `tsQ`, and
the transcript renders that sorted order position by position. -/
theorem c10_sorted_by_numeric_ts (messages : List Message)
    (users : String → Option String) (replyEnvOf : String → ReplyEnv) :
    (sortMessages messages).Perm messages ∧
    (sortMessages messages).Pairwise (fun a b => tsQ a.ts ≤ tsQ b.ts) ∧
    (threadLoop (sortMessages messages) users replyEnvOf true).allMessages
      = (sortMessages messages).map (fun m => formatMessage m users "") := by
  refine ⟨List.mergeSort_perm messages _, ?_, ?_⟩
  · have h := @List.sorted_mergeSort Message (fun a b => decide (tsQ a.ts ≤ tsQ b.ts))
      (fun a b c hab hbc => by
        simp only [decide_eq_true_eq] at hab hbc ⊢
        exact le_trans hab hbc)
      (fun a b => by
        simp only [Bool.or_eq_true, decide_eq_true_eq]
        exact le_total _ _)
      messages
    exact h.imp (fun hab => by simpa using hab)
  · simp only [threadLoop]
    rw [if_neg (by simp)]

/-! ## Export file naming (lines 438–446) and the download endpoint's
filename validation (line 153) -/

/-- `baseFileName` (line 439): the channel name *as returned by the
remote* (no sanitization step exists in the code), an underscore, the
window start as `yyyyMMdd`, a hyphen, the window end as `yyyyMMdd` —
both already shifted to the `+9h` display offset by the caller. -/
def baseFileName (channelName : String) (jstStartDate jstEndDate : CivilDateTime) : String :=
  channelName ++ "_" ++ (⟨formatYyyyMmDdCompact jstStartDate⟩ : String) ++ "-" ++
    (⟨formatYyyyMmDdCompact jstEndDate⟩ : String)

/-- The plain-text artifact name (line 440). -/
def txtFileName (channelName : String) (jstStartDate jstEndDate : CivilDateTime) : String :=
  baseFileName channelName jstStartDate jstEndDate ++ ".txt"

/-- The markdown artifact name (line 441). -/
def mdFileName (channelName : String) (jstStartDate jstEndDate : CivilDateTime) : String :=
  baseFileName channelName jstStartDate jstEndDate ++ ".md"

/-- A character of the class `[a-zA-Z0-9_-]` from the download route's
filename pattern. -/
def isSafeChar (c : Char) : Bool :=
  ('a' ≤ c ∧ c ≤ 'z') ∨ ('A' ≤ c ∧ c ≤ 'Z') ∨ ('0' ≤ c ∧ c ≤ '9') ∨ c = '_' ∨ c = '-'

/-- Non-empty all-safe stem. -/
def stemOk (l : List Char) : Bool := decide (l ≠ []) && l.all isSafeChar

/-- The download endpoint's validation (line 153):
`filename.match(/^[a-zA-Z0-9_-]+\.(txt|md)$/)`. -/
def validDownloadFilename (s : String) : Bool :=
  match s.data.reverse with
  | 't' :: 'x' :: 't' :: '.' :: rest => stemOk rest.reverse
  | 'd' :: 'm' :: '.' :: rest => stemOk rest.reverse
  | _ => false

theorem isSafeChar_digitChar (n : Nat) : isSafeChar (digitChar n) = true := by
  unfold digitChar
  split <;> decide

theorem padDigits_safe : ∀ (k n : Nat), (padDigits k n).all isSafeChar = true := by
  intro k
  induction k with
  | zero => intro n; rfl
  | succ k ih =>
    intro n
    simp [padDigits, List.all_cons, isSafeChar_digitChar, ih]

/-- C9, counterexample to the claim as frozen: the export writer applies
*no* sanitization — a channel display name containing a path separator
flows verbatim into the artifact name, which then fails the repository's
own download-endpoint filename validation (so it cannot even be fetched
back). -/
theorem c9_sanitization_counterexample :
    txtFileName "a/b" ⟨2024, 1, 1, 0, 0, 0⟩ ⟨2024, 1, 31, 0, 0, 0⟩
      = "a/b_20240101-20240131.txt" ∧
    validDownloadFilename (txtFileName "a/b" ⟨2024, 1, 1, 0, 0, 0⟩ ⟨2024, 1, 31, 0, 0, 0⟩)
      = false := by
  refine ⟨by decide, by decide⟩

/-- C9 (amended): the export writer derives the base filename as the
*unsanitized* channel name, an underscore, the start date as `yyyyMMdd`,
a hyphen, and the end date as `yyyyMMdd` (both rendered in the `+9h`
offset by the caller), and writes one artifact per format under that
base name with extensions `.txt` and `.md`; whenever the channel name is
non-empty and uses only `[a-zA-Z0-9_-]` (as real Slack channel names
do), both artifact names satisfy the download endpoint's validation
pattern. -/
theorem c9_export_filenames (channelName : String) (jstS jstE : CivilDateTime)
    (h1 : channelName ≠ "") (h2 : channelName.data.all isSafeChar = true) :
    txtFileName channelName jstS jstE = baseFileName channelName jstS jstE ++ ".txt" ∧
    mdFileName channelName jstS jstE = baseFileName channelName jstS jstE ++ ".md" ∧
    validDownloadFilename (txtFileName channelName jstS jstE) = true ∧
    validDownloadFilename (mdFileName channelName jstS jstE) = true := by
  have hne : channelName.data ≠ [] := by
    intro hc
    exact h1 (String.ext (hc.trans rfl))
  have compact_safe : ∀ dt : CivilDateTime, (formatYyyyMmDdCompact dt).all isSafeChar = true := by
    intro dt
    simp [formatYyyyMmDdCompact, List.all_append, padDigits_safe]
  have hdata : (baseFileName channelName jstS jstE).data =
      channelName.data ++ "_".data ++ formatYyyyMmDdCompact jstS ++ "-".data ++
        formatYyyyMmDdCompact jstE := by
    simp only [baseFileName, String.data_append]
  have hstem : stemOk (baseFileName channelName jstS jstE).data = true := by
    rw [stemOk, hdata]
    simp only [Bool.and_eq_true, decide_eq_true_eq]
    refine ⟨by simp [List.append_eq_nil, hne], ?_⟩
    simp only [List.all_append, Bool.and_eq_true]
    exact ⟨⟨⟨⟨h2, by decide⟩, compact_safe jstS⟩, by decide⟩, compact_safe jstE⟩
  refine ⟨rfl, rfl, ?_, ?_⟩
  · have hrev : (txtFileName channelName jstS jstE).data.reverse =
        't' :: 'x' :: 't' :: '.' :: (baseFileName channelName jstS jstE).data.reverse := by
      rw [txtFileName, String.data_append, List.reverse_append]
      rfl
    rw [validDownloadFilename, hrev]
    show stemOk (baseFileName channelName jstS jstE).data.reverse.reverse = true
    rw [List.reverse_reverse]
    exact hstem
  · have hrev : (mdFileName channelName jstS jstE).data.reverse =
        'd' :: 'm' :: '.' :: (baseFileName channelName jstS jstE).data.reverse := by
      rw [mdFileName, String.data_append, List.reverse_append]
      rfl
    rw [validDownloadFilename, hrev]
    show stemOk (baseFileName channelName jstS jstE).data.reverse.reverse = true
    rw [List.reverse_reverse]
    exact hstem

/-- C9, witness: the naming theorem applied to the channel `general` and
the window 2024-01-01 – 2024-01-31 (already in display offset). -/
theorem c9_export_filenames_witness :
    validDownloadFilename (txtFileName "general" ⟨2024, 1, 1, 9, 0, 0⟩ ⟨2024, 1, 31, 9, 0, 0⟩)
      = true ∧
    validDownloadFilename (mdFileName "general" ⟨2024, 1, 1, 9, 0, 0⟩ ⟨2024, 1, 31, 9, 0, 0⟩)
      = true :=
  ⟨(c9_export_filenames "general" ⟨2024, 1, 1, 9, 0, 0⟩ ⟨2024, 1, 31, 9, 0, 0⟩
      (by decide) (by decide)).2.2.1,
   (c9_export_filenames "general" ⟨2024, 1, 1, 9, 0, 0⟩ ⟨2024, 1, 31, 9, 0, 0⟩
      (by decide) (by decide)).2.2.2⟩

/-! ## The export pipeline (`processExportAsync`, lines 239–464) -/

/-- The remote collaborators one export consumes, as oracles: history
pages by requested cursor, per-thread reply outcomes, the bulk user
directory, and the channel-info result (`channelInfo.channel?.name`,
absent when the call fails or the field is missing). -/
structure ExportEnv where
  history : Option String → HistoryPage
  replyEnvOf : String → ReplyEnv
  users : String → Option String
  channelId : String
  channelName : Option String

/-- How one export run ends. -/
inductive ExportOutcome where
  | usage
  | invalidFormat
  | invalidRange
  | emptyResult
  | fuelExhausted
  | completed (st : ThreadState) (files : List String)
  deriving DecidableEq, Repr

/-- Outcome together with the number of remote data calls made
(history pages, user listing, channel info, reply calls). -/
structure ExportTrace where
  outcome : ExportOutcome
  remoteCalls : Nat
  deriving DecidableEq, Repr

/-- Reply calls made by the thread phase: the per-thread attempt count of
`getThreadReplies`, summed over the thread roots, when threads are
processed at all. -/
def replyCallsOf (messages : List Message) (replyEnvOf : String → ReplyEnv)
    (skipThreads : Bool) : Nat :=
  let tm := threadParents messages
  if 0 < tm.length ∧ skipThreads = false then
    (tm.map (fun m => (getThreadReplies (replyEnvOf (m.thread_ts.getD ""))).attempts)).sum
  else 0

/-- `processExportAsync` after the `command.text` split (lines 242–464):
usage check, then `parseDateTime` on both tokens (rejection before any
remote call), then the range check `startDate >= endDate` (ditto), then
the paginated history fetch, the empty-result notice, the chronological
sort, user/channel lookups, the thread phase and the artifact names. -/
def processExportArgs (args : List String) (env : ExportEnv) (fuel : Nat) : ExportTrace :=
  match args with
  | s :: e :: rest =>
    let skipThreads := (s :: e :: rest).contains "--no-threads"
    match parseDateTime s, parseDateTime e with
    | some startDate, some endDate =>
      if civilLtb startDate endDate = false then ⟨ExportOutcome.invalidRange, 0⟩
      else
        match fetchLoop env.history fuel none [] 0 with
        | none => ⟨ExportOutcome.fuelExhausted, fuel⟩
        | some (messages, pages) =>
          if messages.length = 0 then ⟨ExportOutcome.emptyResult, pages⟩
          else
            let sorted := sortMessages messages
            let channelName := match env.channelName with
              | some n => if n ≠ "" then n else env.channelId
              | none => env.channelId
            let st := threadLoop sorted env.users env.replyEnvOf skipThreads
            let base := baseFileName channelName (addHoursC 9 startDate) (addHoursC 9 endDate)
            ⟨ExportOutcome.completed st [base ++ ".txt", base ++ ".md"],
             pages + 2 + replyCallsOf sorted env.replyEnvOf skipThreads⟩
    | _, _ => ⟨ExportOutcome.invalidFormat, 0⟩
  | _ => ⟨ExportOutcome.usage, 0⟩

/-- C6: for every pair of input tokens, if either token fails to parse
the export rejects with the format error, deciding it *before* the range
check (the rejection fires whatever the other token or the range would
say), and if both parse but `start >= end` after normalization it
rejects with the range error; in both failure cases the trace shows zero
remote calls — the export terminates before any remote call. -/
theorem c6_validation_order (s e : String) (rest : List String) (env : ExportEnv) (fuel : Nat) :
    (parseDateTime s = none ∨ parseDateTime e = none →
      processExportArgs (s :: e :: rest) env fuel = ⟨ExportOutcome.invalidFormat, 0⟩) ∧
    (∀ ds de, parseDateTime s = some ds → parseDateTime e = some de →
      civilLtb ds de = false →
      processExportArgs (s :: e :: rest) env fuel = ⟨ExportOutcome.invalidRange, 0⟩) := by
  constructor
  · intro h
    simp only [processExportArgs]
    rcases h with hs | he
    · simp only [hs]
    · cases hps : parseDateTime s with
      | none => simp only []
      | some ds => simp only [he]
  · intro ds de hds hde hlt
    simp only [processExportArgs, hds, hde]
    rw [if_pos hlt]

/-- Fixed dummy environment for the C6 witness. -/
def c6Env : ExportEnv :=
  ⟨fun _ => ⟨[], none⟩, fun _ => ⟨CallResult.ok none, CallResult.ok none⟩,
   fun _ => none, "C123", none⟩

/-- C6, witness: month 13 fails the format check with zero remote calls;
a reversed window fails the range check with zero remote calls. -/
theorem c6_validation_order_witness :
    processExportArgs ["2024-13-01", "2024-01-02"] c6Env 5
      = ⟨ExportOutcome.invalidFormat, 0⟩ ∧
    processExportArgs ["2024-01-02", "2024-01-01"] c6Env 5
      = ⟨ExportOutcome.invalidRange, 0⟩ :=
  ⟨(c6_validation_order "2024-13-01" "2024-01-02" [] c6Env 5).1 (Or.inl (by decide)),
   (c6_validation_order "2024-01-02" "2024-01-01" [] c6Env 5).2
      ⟨2024, 1, 1, 15, 0, 0⟩ ⟨2023, 12, 31, 15, 0, 0⟩ (by decide) (by decide) (by decide)⟩
